import Mathlib

/-!
Shallow embedding of the AtomSi DAO governance/treasury core (Rust) in Lean 4.

Machine integers are modelled as `Nat` with an explicit `% 2^w` wherever the
Rust code performs arithmetic that can overflow a `u64` or `u32`; timestamps
(`DateTime<Utc>`) are modelled as `Nat`; fallible Rust functions returning
`Result<T, DaoError>` become `Except DaoError T`.  External collaborators
(the balance oracle of the `BlockchainAdapter` trait, whose declaration is
not part of the sources, and the token ledger) are passed in as explicit
parameters, so every operation is a pure function of its inputs and the
environment outcome.
-/

deriving instance DecidableEq for Except

namespace AtomSiDAO

/-- `2^64`, the modulus of Rust `u64` arithmetic. -/
def W64 : Nat := 18446744073709551616

/-- `2^32`, the modulus of Rust `u32` arithmetic. -/
def W32 : Nat := 4294967296

/-- The variants of `core::error::DaoError` that the governance/treasury core
constructs (src/core/error.rs). -/
inductive DaoError where
  | blockchainError (msg : String)
  | databaseError (msg : String)
  | unauthorized
  | invalidParameter (msg : String)
  | notSupported (msg : String)
  | internalError (msg : String)
  deriving DecidableEq

/-- The `Display` rendering of `DaoError` given by its `thiserror` attributes. -/
def DaoError.toMessage : DaoError → String
  | DaoError.blockchainError m => (r"Blockchain error: ") ++ m
  | DaoError.databaseError m => (r"Database error: ") ++ m
  | DaoError.unauthorized => (r"Unauthorized operation")
  | DaoError.invalidParameter m => (r"Invalid parameter: ") ++ m
  | DaoError.notSupported m => (r"Operation not supported: ") ++ m
  | DaoError.internalError m => (r"Internal error: ") ++ m

/-- `serde_json::Value`, restricted to the shapes the governance/treasury core
itself constructs: `Value::Null` and the object
produced from an error message by the treasury
(`serde_json::json!` of an object with an `error` field holding the message). -/
inductive Json where
  | null
  | errObj (msg : String)
  deriving DecidableEq

/-! ## Voting strategies (src/governance/strategies.rs) -/

/-- `VoteWeight`: numerical weight plus derivation metadata
(`HashMap<String, String>` modelled as an association list in insertion
order). -/
structure VoteWeight where
  value : Nat
  metadata : List (String × String)
  deriving DecidableEq

/-- `TokenWeightedVoting::calculate_weight`: weight is the balance itself. -/
def TokenWeightedVoting.calculate_weight (_address : String) (balance : Nat) :
    Except DaoError VoteWeight :=
  Except.ok { value := balance, metadata := [] }

/-- `QuadraticVoting::calculate_weight`.  The numeric helper
`QuadraticVoting::sqrt` computes `(x as f64).sqrt() as u64` with IEEE-754
doubles; floating point is outside this embedding, so the integer it produces
is abstracted as the parameter `sqrtFn`.  Everything else (the `Ok` wrapper
and the metadata) is translated from the source. -/
def QuadraticVoting.calculate_weight (sqrtFn : Nat → Nat) (_address : String)
    (balance : Nat) : Except DaoError VoteWeight :=
  Except.ok
    { value := sqrtFn balance,
      metadata :=
        [((r"formula"), (r"sqrt(balance)")),
         ((r"original_balance"), toString balance)] }

/-- `ConvictionVoting::calculate_weight`: a fixed conviction multiplier
`5.min(max_conviction)` times the balance (`u64` multiplication, hence the
`% 2^64`). -/
def ConvictionVoting.calculate_weight (max_conviction _conviction_per_block : Nat)
    (_address : String) (balance : Nat) : Except DaoError VoteWeight :=
  let conviction := min 5 max_conviction
  let weight := (balance * conviction) % W64
  Except.ok
    { value := weight,
      metadata :=
        [((r"conviction"), toString conviction),
         ((r"formula"), (r"balance * conviction")),
         ((r"original_balance"), toString balance)] }

/-- The closed set of strategies selectable at `GovernanceEngine::new`. -/
inductive StrategyKind where
  | tokenWeighted
  | quadratic
  | conviction
  deriving DecidableEq

/-- Strategy selection in `GovernanceEngine::new`: the configuration label
`config.dao.governance_token` picks the strategy, defaulting to
token-weighted. -/
def selectStrategy (governance_token : String) : StrategyKind :=
  if governance_token = (r"Quadratic") then StrategyKind.quadratic
  else if governance_token = (r"Conviction") then StrategyKind.conviction
  else StrategyKind.tokenWeighted

/-- Dispatch of `VotingStrategy::calculate_weight` over the active strategy.
`ConvictionVoting::new()` (used at engine construction) has
`max_conviction = 10`, `conviction_per_block = 1`. -/
def VotingStrategy.calculate_weight (sqrtFn : Nat → Nat) (k : StrategyKind)
    (address : String) (balance : Nat) : Except DaoError VoteWeight :=
  match k with
  | StrategyKind.tokenWeighted => TokenWeightedVoting.calculate_weight address balance
  | StrategyKind.quadratic => QuadraticVoting.calculate_weight sqrtFn address balance
  | StrategyKind.conviction => ConvictionVoting.calculate_weight 10 1 address balance

/-! ## Governance engine (src/governance/mod.rs) -/

/-- `GovernanceEngine::get_voting_weight`: fetch the balance from the
blockchain oracle (a `u64`, hence `% 2^64` at the boundary of the abstract
oracle), map oracle failure to `DaoError::BlockchainError`, then apply the
active strategy. -/
def GovernanceEngine.get_voting_weight (sqrtFn : Nat → Nat) (k : StrategyKind)
    (bal : String → Except String Nat) (address : String) :
    Except DaoError VoteWeight :=
  match bal address with
  | Except.error e => Except.error (DaoError.blockchainError e)
  | Except.ok b => VotingStrategy.calculate_weight sqrtFn k address (b % W64)

/-! ## Proposals (src/proposals/types.rs, src/proposals/mod.rs) -/

/-- `ProposalState` (src/proposals/types.rs). -/
inductive ProposalState where
  | Draft
  | Voting
  | Approved
  | Rejected
  | Executed
  | Cancelled
  deriving DecidableEq

/-- `ProposalType` (src/proposals/types.rs). -/
inductive ProposalType where
  | Transfer (toAddr : String) (amount : Nat) (token : String)
  | ContractCall (contract : String) (function : String) (args : List Json)
  | ParameterChange (parameter : String) (value : Json)
  | TextProposal (metadata : Json)
  deriving DecidableEq

/-- `ProposalVote` (src/proposals/types.rs). -/
inductive ProposalVote where
  | Yes
  | No
  | Abstain
  deriving DecidableEq

/-- `Vote` record (src/proposals/types.rs). -/
structure Vote where
  voter : String
  vote : ProposalVote
  voting_power : Nat
  timestamp : Nat
  deriving DecidableEq

/-- `Proposal` (src/proposals/types.rs), timestamps as `Nat`. -/
structure Proposal where
  id : String
  title : String
  description : String
  proposal_type : ProposalType
  proposer : String
  state : ProposalState
  created_at : Nat
  updated_at : Nat
  voting_starts_at : Option Nat
  voting_ends_at : Option Nat
  execution_date : Option Nat
  metadata : Json
  yes_votes : Nat
  no_votes : Nat
  abstain_votes : Nat
  votes : List Vote
  deriving DecidableEq

/-- The optional fields of `ProposalBuilder` before `build`. -/
structure ProposalBuilder where
  title : Option String
  description : Option String
  proposal_type : Option ProposalType
  proposer : Option String
  metadata : Json

/-- `ProposalBuilder::build`: errors if a required field is unset, otherwise a
fresh Draft proposal with zero tallies and no votes.  The generated UUID and
`Utc::now()` are inputs `id` and `now`. -/
def ProposalBuilder.build (b : ProposalBuilder) (id : String) (now : Nat) :
    Except DaoError Proposal :=
  match b.title, b.description, b.proposal_type, b.proposer with
  | none, _, _, _ =>
      Except.error (DaoError.invalidParameter (r"Proposal title is required"))
  | some _, none, _, _ =>
      Except.error (DaoError.invalidParameter (r"Proposal description is required"))
  | some _, some _, none, _ =>
      Except.error (DaoError.invalidParameter (r"Proposal type is required"))
  | some _, some _, some _, none =>
      Except.error (DaoError.invalidParameter (r"Proposer is required"))
  | some title, some description, some proposal_type, some proposer =>
      Except.ok
        { id := id, title := title, description := description,
          proposal_type := proposal_type, proposer := proposer,
          state := ProposalState.Draft, created_at := now, updated_at := now,
          voting_starts_at := none, voting_ends_at := none,
          execution_date := none, metadata := b.metadata,
          yes_votes := 0, no_votes := 0, abstain_votes := 0, votes := [] }

/-- The tally update of `ProposalManager::vote`: add the voting power to the
matching `u64` counter (wrapping, hence `% 2^64`). -/
def addTally (p : Proposal) (choice : ProposalVote) (w : Nat) : Proposal :=
  match choice with
  | ProposalVote.Yes => { p with yes_votes := (p.yes_votes + w) % W64 }
  | ProposalVote.No => { p with no_votes := (p.no_votes + w) % W64 }
  | ProposalVote.Abstain => { p with abstain_votes := (p.abstain_votes + w) % W64 }

/-- `ProposalManager::vote`: state check, voting-window check, one-vote-per-
voter check, then the voter's raw oracle balance (a `u64`) is used as the
voting power, rejected if zero; finally the tally update and the appended
`Vote` record.  The returned proposal is the one saved to the database; on
error nothing is saved. -/
def ProposalManager.vote (bal : String → Except String Nat) (now : Nat)
    (p : Proposal) (voter : String) (choice : ProposalVote) :
    Except DaoError Proposal :=
  if p.state ≠ ProposalState.Voting then
    Except.error (DaoError.invalidParameter (r"Proposal is not in the voting state"))
  else
    match p.voting_starts_at, p.voting_ends_at with
    | none, _ => Except.error (DaoError.internalError (r"Voting start time not set"))
    | some _, none => Except.error (DaoError.internalError (r"Voting end time not set"))
    | some s, some t =>
      if now < s then
        Except.error (DaoError.invalidParameter (r"Voting has not started yet"))
      else if t < now then
        Except.error (DaoError.invalidParameter (r"Voting has ended"))
      else if p.votes.any (fun v => v.voter = voter) then
        Except.error (DaoError.invalidParameter (r"Voter has already voted"))
      else
        match bal voter with
        | Except.error e => Except.error (DaoError.blockchainError e)
        | Except.ok b =>
          let voting_power := b % W64
          if voting_power = 0 then Except.error DaoError.unauthorized
          else
            let p1 := addTally p choice voting_power
            Except.ok
              { p1 with
                votes := p1.votes ++
                  [{ voter := voter, vote := choice,
                     voting_power := voting_power, timestamp := now }],
                updated_at := now }

/-- `ProposalManager::start_voting`: only from Draft; opens a voting window of
`voting_period_days` days (a day being 86400 time units). -/
def ProposalManager.start_voting (voting_period_days : Nat) (now : Nat)
    (p : Proposal) : Except DaoError Proposal :=
  if p.state ≠ ProposalState.Draft then
    Except.error (DaoError.invalidParameter (r"Proposal is not in the draft state"))
  else
    Except.ok
      { p with
        state := ProposalState.Voting
        voting_starts_at := some now
        voting_ends_at := some (now + voting_period_days * 86400)
        updated_at := now }

/-- `ProposalManager::cancel_proposal`: only from Draft or Voting, only by the
proposer. -/
def ProposalManager.cancel_proposal (now : Nat) (p : Proposal)
    (canceller : String) : Except DaoError Proposal :=
  if p.state ≠ ProposalState.Draft ∧ p.state ≠ ProposalState.Voting then
    Except.error
      (DaoError.invalidParameter (r"Proposal cannot be cancelled in its current state"))
  else if p.proposer ≠ canceller then Except.error DaoError.unauthorized
  else Except.ok { p with state := ProposalState.Cancelled, updated_at := now }

/-- `ProposalManager::execute_proposal`: only from Approved.  `chainResult` is
the outcome of the one external blockchain call the proposal type dispatches
(`send_transaction` for Transfer, `call_contract` for ContractCall); parameter
changes are unsupported and text proposals need no call.  Only on success is
the Executed proposal saved. -/
def ProposalManager.execute_proposal (chainResult : Except String Unit)
    (now : Nat) (p : Proposal) : Except DaoError Proposal :=
  if p.state ≠ ProposalState.Approved then
    Except.error (DaoError.invalidParameter (r"Proposal is not in the approved state"))
  else
    let effect : Except DaoError Unit :=
      match p.proposal_type with
      | ProposalType.Transfer _ _ _ =>
          match chainResult with
          | Except.error e => Except.error (DaoError.blockchainError e)
          | Except.ok _ => Except.ok ()
      | ProposalType.ContractCall _ _ _ =>
          match chainResult with
          | Except.error e => Except.error (DaoError.blockchainError e)
          | Except.ok _ => Except.ok ()
      | ProposalType.ParameterChange _ _ =>
          Except.error (DaoError.notSupported (r"Parameter changes not yet implemented"))
      | ProposalType.TextProposal _ => Except.ok ()
    match effect with
    | Except.error e => Except.error e
    | Except.ok _ =>
        Except.ok
          { p with
            state := ProposalState.Executed
            execution_date := some now
            updated_at := now }

/-- `ProposalManager::finalize_vote`: all arithmetic is `u64`.  The quorum
threshold is `quorum_percentage` per cent of the total votes actually cast,
and the majority threshold is `majority_percentage` per cent of the yes+no
votes. -/
def ProposalManager.finalize_vote (quorum_percentage majority_percentage : Nat)
    (now : Nat) (p : Proposal) : Proposal :=
  let total_votes := (p.yes_votes + p.no_votes + p.abstain_votes) % W64
  let quorum_threshold := (quorum_percentage * total_votes) % W64 / 100
  let majority_threshold :=
    (majority_percentage * ((p.yes_votes + p.no_votes) % W64)) % W64 / 100
  if total_votes < quorum_threshold then
    { p with state := ProposalState.Rejected, updated_at := now }
  else if majority_threshold ≤ p.yes_votes then
    { p with state := ProposalState.Approved, updated_at := now }
  else
    { p with state := ProposalState.Rejected, updated_at := now }

/-! ## Treasury (src/treasury/mod.rs) -/

/-- `TransactionStatus`. -/
inductive TransactionStatus where
  | Pending
  | Approved
  | Executed
  | Rejected
  | Failed
  deriving DecidableEq

/-- Treasury `Transaction`, timestamps as `Nat`. -/
structure Transaction where
  id : String
  description : String
  toAddr : String
  token : String
  amount : Nat
  status : TransactionStatus
  required_approvals : Nat
  current_approvals : Nat
  created_at : Nat
  updated_at : Nat
  executed_at : Option Nat
  approvers : List String
  transaction_hash : Option String
  metadata : Json
  deriving DecidableEq

/-- The optional fields of `TransactionBuilder` before `build`. -/
structure TransactionBuilder where
  description : Option String
  toAddr : Option String
  token : Option String
  amount : Option Nat
  required_approvals : Option Nat
  metadata : Json

/-- `TransactionBuilder::build`: errors if a required field is unset or if
`required_approvals` (defaulted to 1) is zero; otherwise a fresh Pending
transaction with no approvals. -/
def TransactionBuilder.build (b : TransactionBuilder) (id : String) (now : Nat) :
    Except DaoError Transaction :=
  match b.description, b.toAddr, b.token, b.amount with
  | none, _, _, _ =>
      Except.error (DaoError.invalidParameter (r"Transaction description is required"))
  | some _, none, _, _ =>
      Except.error (DaoError.invalidParameter (r"Recipient address is required"))
  | some _, some _, none, _ =>
      Except.error (DaoError.invalidParameter (r"Token symbol is required"))
  | some _, some _, some _, none =>
      Except.error (DaoError.invalidParameter (r"Transaction amount is required"))
  | some description, some toAddr, some token, some amount =>
      let required_approvals := b.required_approvals.getD 1
      if required_approvals = 0 then
        Except.error
          (DaoError.invalidParameter (r"Required approvals must be greater than 0"))
      else
        Except.ok
          { id := id, description := description, toAddr := toAddr,
            token := token, amount := amount,
            status := TransactionStatus.Pending,
            required_approvals := required_approvals, current_approvals := 0,
            created_at := now, updated_at := now, executed_at := none,
            approvers := [], transaction_hash := none, metadata := b.metadata }

/-- `TreasuryManager::get_treasury_address` (a fixed placeholder address). -/
def get_treasury_address : String := (r"0xTreasury")

/-- `TreasuryManager::get_signers`: the authorized signer set derived from
the configured signer count `config.treasury.signers` (this configuration
field's declaration is not in the sources; the count is taken as a `Nat`). -/
def get_signers (n : Nat) : List String :=
  (List.range n).map (fun i => (r"0xSigner") ++ toString i)

/-- One call to the token ledger's `transfer` (symbol, from, to, amount). -/
structure TransferCall where
  token : String
  fromAddr : String
  toAddr : String
  amount : Nat
  deriving DecidableEq

/-- Observable outcome of a treasury operation: the returned `Result`, the
transaction as last saved to the store, and the ledger calls attempted. -/
structure TreasuryOutcome where
  result : Except DaoError Unit
  stored : Transaction
  calls : List TransferCall

/-- `TreasuryManager::execute_transaction`: requires Approved; attempts the
ledger transfer from the treasury address (its outcome is the environment
input `transferResult`); on success saves Executed with a timestamp, on
failure saves Failed with the error message captured in the metadata and
propagates the error. -/
def TreasuryManager.execute_transaction (transferResult : Except DaoError Unit)
    (now : Nat) (tx : Transaction) : TreasuryOutcome :=
  if tx.status ≠ TransactionStatus.Approved then
    { result := Except.error
        (DaoError.invalidParameter (r"Transaction is not in an approved state"))
      stored := tx
      calls := [] }
  else
    let call : TransferCall :=
      { token := tx.token, fromAddr := get_treasury_address,
        toAddr := tx.toAddr, amount := tx.amount }
    match transferResult with
    | Except.ok _ =>
        { result := Except.ok ()
          stored :=
            { tx with
              status := TransactionStatus.Executed
              executed_at := some now
              updated_at := now }
          calls := [call] }
    | Except.error e =>
        { result := Except.error e
          stored :=
            { tx with
              status := TransactionStatus.Failed
              updated_at := now
              metadata := Json.errObj (DaoError.toMessage e) }
          calls := [call] }

/-- `TreasuryManager::approve_transaction`: requires Pending, an authorized
signer, and no duplicate approval; appends the approver and increments the
`u32` counter (hence `% 2^32`); once the threshold is met, saves the Approved
transaction and immediately attempts execution (which reloads the transaction
just saved), propagating any execution error. -/
def TreasuryManager.approve_transaction (signers : List String)
    (transferResult : Except DaoError Unit) (now : Nat) (tx : Transaction)
    (approver : String) : TreasuryOutcome :=
  if tx.status ≠ TransactionStatus.Pending then
    { result := Except.error
        (DaoError.invalidParameter (r"Transaction is not in a pending state"))
      stored := tx
      calls := [] }
  else if approver ∉ signers then
    { result := Except.error DaoError.unauthorized, stored := tx, calls := [] }
  else if approver ∈ tx.approvers then
    { result := Except.error
        (DaoError.invalidParameter (r"Approver has already approved this transaction"))
      stored := tx
      calls := [] }
  else
    let tx1 :=
      { tx with
        approvers := tx.approvers ++ [approver]
        current_approvals := (tx.current_approvals + 1) % W32
        updated_at := now }
    let tx2 :=
      if tx1.required_approvals ≤ tx1.current_approvals then
        { tx1 with status := TransactionStatus.Approved }
      else tx1
    if tx2.status = TransactionStatus.Approved then
      TreasuryManager.execute_transaction transferResult now tx2
    else
      { result := Except.ok (), stored := tx2, calls := [] }

/-- `TreasuryManager::reject_transaction`: requires Pending and an authorized
signer; saves the transaction as Rejected. -/
def TreasuryManager.reject_transaction (signers : List String) (now : Nat)
    (tx : Transaction) (rejector : String) : TreasuryOutcome :=
  if tx.status ≠ TransactionStatus.Pending then
    { result := Except.error
        (DaoError.invalidParameter (r"Transaction is not in a pending state"))
      stored := tx
      calls := [] }
  else if rejector ∉ signers then
    { result := Except.error DaoError.unauthorized, stored := tx, calls := [] }
  else
    { result := Except.ok ()
      stored := { tx with status := TransactionStatus.Rejected, updated_at := now }
      calls := [] }

/-! ## Reachable proposals and their invariants -/

/-- Any single mutation a `ProposalManager` operation can apply to a stored
proposal: a successful `start_voting`, `vote`, `execute_proposal` or
`cancel_proposal` (failed calls store nothing), or the finalization performed
by `process_proposals` on a proposal in Voting whose window has passed. -/
inductive PStep : Proposal → Proposal → Prop where
  | start_voting (d now : Nat) (p p' : Proposal) :
      ProposalManager.start_voting d now p = Except.ok p' → PStep p p'
  | vote (bal : String → Except String Nat) (now : Nat) (voter : String)
      (choice : ProposalVote) (p p' : Proposal) :
      ProposalManager.vote bal now p voter choice = Except.ok p' → PStep p p'
  | execute (c : Except String Unit) (now : Nat) (p p' : Proposal) :
      ProposalManager.execute_proposal c now p = Except.ok p' → PStep p p'
  | cancel (now : Nat) (canceller : String) (p p' : Proposal) :
      ProposalManager.cancel_proposal now p canceller = Except.ok p' → PStep p p'
  | finalize (q m now t : Nat) (p : Proposal) :
      p.state = ProposalState.Voting → p.voting_ends_at = some t → t < now →
      PStep p (ProposalManager.finalize_vote q m now p)

/-- A proposal reachable from a freshly built proposal through the
`ProposalManager` operations. -/
def PReachable (p : Proposal) : Prop :=
  ∃ b id now p0, ProposalBuilder.build b id now = Except.ok p0
    ∧ Relation.ReflTransGen PStep p0 p

/-- Sum of the `voting_power` fields of a proposal's vote records. -/
def votesSum (p : Proposal) : Nat :=
  (p.votes.map (fun v => v.voting_power)).sum

/-- The vote-book invariants: voters are pairwise distinct, and the three
`u64` tallies account for the recorded weights. -/
def PInv (p : Proposal) : Prop :=
  p.votes.Pairwise (fun a b => a.voter ≠ b.voter)
  ∧ (p.yes_votes + p.no_votes + p.abstain_votes) % W64 = votesSum p % W64
  ∧ (votesSum p < W64 →
      p.yes_votes + p.no_votes + p.abstain_votes = votesSum p)

lemma addTally_votes (p : Proposal) (c : ProposalVote) (w : Nat) :
    (addTally p c w).votes = p.votes := by
  cases c <;> rfl

lemma addTally_state (p : Proposal) (c : ProposalVote) (w : Nat) :
    (addTally p c w).state = p.state := by
  cases c <;> rfl

/-- Characterization of a successful `ProposalManager::vote`: the proposal is
in Voting, the window is open, the voter is fresh, the oracle returned a
nonzero balance, and the stored proposal is the input with the matching tally
bumped and the vote appended. -/
lemma vote_ok_shape (bal : String → Except String Nat) (now : Nat)
    (p : Proposal) (voter : String) (choice : ProposalVote) (p' : Proposal)
    (h : ProposalManager.vote bal now p voter choice = Except.ok p') :
    p.state = ProposalState.Voting
    ∧ (∀ v ∈ p.votes, v.voter ≠ voter)
    ∧ ∃ b, bal voter = Except.ok b ∧ b % W64 ≠ 0
      ∧ p' = { addTally p choice (b % W64) with
               votes := p.votes ++
                 [{ voter := voter, vote := choice,
                    voting_power := b % W64, timestamp := now }]
               updated_at := now } := by
  unfold ProposalManager.vote at h
  split at h
  · cases h
  next hstate =>
    split at h
    · cases h
    · cases h
    next s t =>
      split at h
      · cases h
      next hs =>
        split at h
        · cases h
        next ht =>
          split at h
          · cases h
          next hany =>
            split at h
            next e hbal => cases h
            next b hbal =>
              dsimp only [] at h
              split at h
              · cases h
              next hw =>
                refine ⟨not_not.mp hstate, ?_, b, hbal, hw, ?_⟩
                · intro v hv hveq
                  exact hany (List.any_eq_true.mpr ⟨v, hv, decide_eq_true hveq⟩)
                · cases h
                  rw [addTally_votes]

lemma start_voting_ok_shape (d now : Nat) (p p' : Proposal)
    (h : ProposalManager.start_voting d now p = Except.ok p') :
    p.state = ProposalState.Draft
    ∧ p' = { p with
             state := ProposalState.Voting
             voting_starts_at := some now
             voting_ends_at := some (now + d * 86400)
             updated_at := now } := by
  unfold ProposalManager.start_voting at h
  split at h
  · cases h
  next hstate =>
    cases h
    exact ⟨not_not.mp hstate, rfl⟩

lemma cancel_ok_shape (now : Nat) (canceller : String) (p p' : Proposal)
    (h : ProposalManager.cancel_proposal now p canceller = Except.ok p') :
    p' = { p with state := ProposalState.Cancelled, updated_at := now } := by
  unfold ProposalManager.cancel_proposal at h
  split at h
  · cases h
  split at h
  · cases h
  cases h
  rfl

lemma execute_ok_shape (c : Except String Unit) (now : Nat) (p p' : Proposal)
    (h : ProposalManager.execute_proposal c now p = Except.ok p') :
    p.state = ProposalState.Approved
    ∧ p' = { p with
             state := ProposalState.Executed
             execution_date := some now
             updated_at := now } := by
  unfold ProposalManager.execute_proposal at h
  split at h
  · cases h
  next hstate =>
    dsimp only [] at h
    split at h
    · cases h
    cases h
    exact ⟨not_not.mp hstate, rfl⟩

lemma finalize_fields (q m now : Nat) (p : Proposal) :
    (ProposalManager.finalize_vote q m now p).votes = p.votes
    ∧ (ProposalManager.finalize_vote q m now p).yes_votes = p.yes_votes
    ∧ (ProposalManager.finalize_vote q m now p).no_votes = p.no_votes
    ∧ (ProposalManager.finalize_vote q m now p).abstain_votes = p.abstain_votes := by
  unfold ProposalManager.finalize_vote
  dsimp only []
  split
  · exact ⟨rfl, rfl, rfl, rfl⟩
  split
  · exact ⟨rfl, rfl, rfl, rfl⟩
  · exact ⟨rfl, rfl, rfl, rfl⟩

lemma build_ok_shape (b : ProposalBuilder) (id : String) (now : Nat)
    (p0 : Proposal) (h : ProposalBuilder.build b id now = Except.ok p0) :
    p0.state = ProposalState.Draft ∧ p0.votes = []
    ∧ p0.yes_votes = 0 ∧ p0.no_votes = 0 ∧ p0.abstain_votes = 0 := by
  unfold ProposalBuilder.build at h
  split at h <;> cases h
  exact ⟨rfl, rfl, rfl, rfl, rfl⟩

/-- Lifting the tally/sum invariant across one `u64` tally bump by `w`, for
each of the three counters. -/
lemma tally_bump3 (y n a s w : Nat)
    (h1 : (y + n + a) % W64 = s % W64) (h2 : s < W64 → y + n + a = s) :
    (((y + w % W64) % W64 + n + a) % W64 = (s + w % W64) % W64
      ∧ (s + w % W64 < W64 → (y + w % W64) % W64 + n + a = s + w % W64))
    ∧ ((y + (n + w % W64) % W64 + a) % W64 = (s + w % W64) % W64
      ∧ (s + w % W64 < W64 → y + (n + w % W64) % W64 + a = s + w % W64))
    ∧ ((y + n + (a + w % W64) % W64) % W64 = (s + w % W64) % W64
      ∧ (s + w % W64 < W64 → y + n + (a + w % W64) % W64 = s + w % W64)) := by
  unfold W64 at *
  omega

/-- Every `ProposalManager` mutation preserves the vote-book invariants. -/
lemma pinv_step (p p' : Proposal) (hstep : PStep p p') (hinv : PInv p) :
    PInv p' := by
  obtain ⟨hpw, h1, h2⟩ := hinv
  cases hstep with
  | start_voting d now p p' h =>
      obtain ⟨-, rfl⟩ := start_voting_ok_shape d now p p' h
      exact ⟨hpw, h1, h2⟩
  | cancel now canceller p p' h =>
      obtain rfl := cancel_ok_shape now canceller p p' h
      exact ⟨hpw, h1, h2⟩
  | execute c now p p' h =>
      obtain ⟨-, rfl⟩ := execute_ok_shape c now p p' h
      exact ⟨hpw, h1, h2⟩
  | finalize q m now t p hv he hlt =>
      obtain ⟨hvv, hy, hn, ha⟩ := finalize_fields q m now p
      unfold PInv
      unfold votesSum at h1 h2 ⊢
      rw [hvv, hy, hn, ha]
      exact ⟨hpw, h1, h2⟩
  | vote bal now voter choice p p' h =>
      obtain ⟨-, hfresh, b, -, -, rfl⟩ := vote_ok_shape bal now p voter choice p' h
      have hb3 := tally_bump3 p.yes_votes p.no_votes p.abstain_votes
        (votesSum p) b h1 h2
      have hpair : (p.votes ++
          [({ voter := voter, vote := choice,
              voting_power := b % W64, timestamp := now } : Vote)]).Pairwise
          (fun a b => a.voter ≠ b.voter) := by
        rw [List.pairwise_append]
        refine ⟨hpw, List.pairwise_singleton _ _, ?_⟩
        intro a ha v hv
        rw [List.mem_singleton] at hv
        subst hv
        exact hfresh a ha
      have hsum : ((p.votes ++
          [({ voter := voter, vote := choice,
              voting_power := b % W64, timestamp := now } : Vote)]).map
            (fun v => v.voting_power)).sum
          = (p.votes.map (fun v => v.voting_power)).sum + b % W64 := by
        simp
      cases choice <;>
        (unfold PInv
         unfold votesSum
         dsimp only [addTally]
         rw [hsum]
         refine ⟨hpair, ?_, ?_⟩) <;>
        first
        | exact hb3.1.1
        | exact hb3.1.2
        | exact hb3.2.1.1
        | exact hb3.2.1.2
        | exact hb3.2.2.1
        | exact hb3.2.2.2

/-- Every reachable proposal satisfies the vote-book invariants. -/
lemma preachable_pinv (p : Proposal) (h : PReachable p) : PInv p := by
  obtain ⟨b, id, now, p0, hbuild, hsteps⟩ := h
  have h0 : PInv p0 := by
    obtain ⟨hst, hv, hy, hn, ha⟩ := build_ok_shape b id now p0 hbuild
    unfold PInv votesSum
    rw [hv, hy, hn, ha]
    simp
  clear hbuild
  induction hsteps with
  | refl => exact h0
  | tail _ hstep ih => exact pinv_step _ _ hstep ih

/-! ## Reachable treasury transactions and their invariants -/

/-- Any single mutation a `TreasuryManager` operation can apply to a stored
transaction (the signer set is the one derived from the configured signer
count `n`; the ledger outcome of each execution attempt is arbitrary). -/
inductive TxStep (n : Nat) : Transaction → Transaction → Prop where
  | approve (tr : Except DaoError Unit) (now : Nat) (approver : String)
      (tx : Transaction) :
      TxStep n tx
        (TreasuryManager.approve_transaction (get_signers n) tr now tx approver).stored
  | reject (now : Nat) (rejector : String) (tx : Transaction) :
      TxStep n tx
        (TreasuryManager.reject_transaction (get_signers n) now tx rejector).stored
  | execute (tr : Except DaoError Unit) (now : Nat) (tx : Transaction) :
      TxStep n tx (TreasuryManager.execute_transaction tr now tx).stored

/-- A transaction reachable from a freshly built transaction through the
`TreasuryManager` operations, under the signer set of size `n`. -/
def TxReachable (n : Nat) (tx : Transaction) : Prop :=
  ∃ b id now tx0, TransactionBuilder.build b id now = Except.ok tx0
    ∧ Relation.ReflTransGen (TxStep n) tx0 tx

/-- The treasury invariants: approvers are pairwise distinct authorized
signers, and any transaction past Pending (other than a Rejected one) has
met its approval threshold. -/
def TxInv (n : Nat) (tx : Transaction) : Prop :=
  tx.approvers.Nodup
  ∧ (∀ a ∈ tx.approvers, a ∈ get_signers n)
  ∧ ((tx.status = TransactionStatus.Approved
      ∨ tx.status = TransactionStatus.Executed
      ∨ tx.status = TransactionStatus.Failed) →
      tx.required_approvals ≤ tx.current_approvals)

lemma execute_stored_fields (tr : Except DaoError Unit) (now : Nat)
    (tx : Transaction) :
    (TreasuryManager.execute_transaction tr now tx).stored.approvers = tx.approvers
    ∧ (TreasuryManager.execute_transaction tr now tx).stored.current_approvals
        = tx.current_approvals
    ∧ (TreasuryManager.execute_transaction tr now tx).stored.required_approvals
        = tx.required_approvals
    ∧ ((TreasuryManager.execute_transaction tr now tx).stored.status = tx.status
        ∨ tx.status = TransactionStatus.Approved) := by
  unfold TreasuryManager.execute_transaction
  split
  · exact ⟨rfl, rfl, rfl, Or.inl rfl⟩
  next happ =>
    have : tx.status = TransactionStatus.Approved := not_not.mp happ
    split <;> exact ⟨rfl, rfl, rfl, Or.inr this⟩

/-- Executing a transaction preserves the treasury invariants. -/
lemma txinv_execute (n : Nat) (tr : Except DaoError Unit) (now : Nat)
    (tx : Transaction) (hinv : TxInv n tx) :
    TxInv n (TreasuryManager.execute_transaction tr now tx).stored := by
  obtain ⟨hnd, hsub, hth⟩ := hinv
  obtain ⟨ha, hc, hr, hs⟩ := execute_stored_fields tr now tx
  refine ⟨?_, ?_, ?_⟩
  · rw [ha]; exact hnd
  · rw [ha]; exact hsub
  · intro hstat
    rw [hc, hr]
    cases hs with
    | inl h => exact hth (h ▸ hstat)
    | inr h => exact hth (Or.inl h)

/-- Every `TreasuryManager` mutation preserves the treasury invariants. -/
lemma txinv_step (n : Nat) (tx tx' : Transaction) (hstep : TxStep n tx tx')
    (hinv : TxInv n tx) : TxInv n tx' := by
  obtain ⟨hnd, hsub, hth⟩ := hinv
  cases hstep with
  | execute tr now tx => exact txinv_execute n tr now tx ⟨hnd, hsub, hth⟩
  | reject now rejector tx =>
      unfold TreasuryManager.reject_transaction
      split
      · exact ⟨hnd, hsub, hth⟩
      split
      · exact ⟨hnd, hsub, hth⟩
      · refine ⟨hnd, hsub, ?_⟩
        intro hstat
        rcases hstat with h | h | h <;> simp at h
  | approve tr now approver tx =>
      unfold TreasuryManager.approve_transaction
      split
      · exact ⟨hnd, hsub, hth⟩
      next hpend =>
        split
        · exact ⟨hnd, hsub, hth⟩
        next hsig =>
          split
          · exact ⟨hnd, hsub, hth⟩
          next hdup =>
            have hp : tx.status = TransactionStatus.Pending := not_not.mp hpend
            have hsig' : approver ∈ get_signers n := not_not.mp hsig
            have hnd1 : (tx.approvers ++ [approver]).Nodup := by
              simp only [List.nodup_append, List.nodup_cons, List.nodup_nil,
                List.mem_singleton, List.disjoint_singleton]
              exact ⟨hnd, ⟨fun h => (List.not_mem_nil _ h).elim, trivial⟩, hdup⟩
            have hsub1 : ∀ a ∈ tx.approvers ++ [approver], a ∈ get_signers n := by
              intro a ha
              rcases List.mem_append.mp ha with h | h
              · exact hsub a h
              · rw [List.mem_singleton] at h
                exact h ▸ hsig'
            dsimp only []
            split
            next hthr =>
              rw [if_pos rfl]
              exact txinv_execute n tr now _ ⟨hnd1, hsub1, fun _ => hthr⟩
            next hthr =>
              rw [hp, if_neg (by simp)]
              refine ⟨hnd1, hsub1, ?_⟩
              intro hstat
              rcases hstat with h | h | h <;> simp at h

/-- Every reachable treasury transaction satisfies the treasury invariants. -/
lemma txreachable_txinv (n : Nat) (tx : Transaction) (h : TxReachable n tx) :
    TxInv n tx := by
  obtain ⟨b, id, now, tx0, hbuild, hsteps⟩ := h
  have h0 : TxInv n tx0 := by
    unfold TransactionBuilder.build at hbuild
    split at hbuild <;> try cases hbuild
    dsimp only [] at hbuild
    split at hbuild
    · cases hbuild
    cases hbuild
    exact ⟨List.nodup_nil, fun a ha => (List.not_mem_nil a ha).elim,
      fun h => by rcases h with h | h | h <;> cases h⟩
  clear hbuild
  induction hsteps with
  | refl => exact h0
  | tail _ hstep ih => exact txinv_step n _ _ hstep ih

/-! ## Concrete instances used by the witness theorems -/

/-- A fully populated proposal builder. -/
def pbEx : ProposalBuilder :=
  { title := some (r"t"), description := some (r"d"),
    proposal_type := some (ProposalType.TextProposal Json.null),
    proposer := some (r"0xP"), metadata := Json.null }

/-- The Draft proposal `pbEx` builds. -/
def p0Ex : Proposal :=
  { id := (r"prop-1"), title := (r"t"), description := (r"d"),
    proposal_type := ProposalType.TextProposal Json.null, proposer := (r"0xP"),
    state := ProposalState.Draft, created_at := 0, updated_at := 0,
    voting_starts_at := none, voting_ends_at := none, execution_date := none,
    metadata := Json.null, yes_votes := 0, no_votes := 0, abstain_votes := 0,
    votes := [] }

/-- `p0Ex` after `start_voting` with a one-day period at time 0. -/
def p1Ex : Proposal :=
  { p0Ex with
    state := ProposalState.Voting
    voting_starts_at := some 0
    voting_ends_at := some 86400 }

/-- A balance oracle answering 7 for every address. -/
def balEx : String → Except String Nat := fun _ => Except.ok 7

/-- A balance oracle answering 100 for every address. -/
def balEx100 : String → Except String Nat := fun _ => Except.ok 100

/-- `p1Ex` after voter `0xA` (balance 7) votes Yes at time 5. -/
def pVotedEx : Proposal :=
  { p1Ex with
    yes_votes := 7
    votes := [{ voter := (r"0xA"), vote := ProposalVote.Yes,
                voting_power := 7, timestamp := 5 }]
    updated_at := 5 }

/-- `p1Ex` after voter `0xB` (balance 100) votes Yes at time 5. -/
def pVoted100Ex : Proposal :=
  { p1Ex with
    yes_votes := 100
    votes := [{ voter := (r"0xB"), vote := ProposalVote.Yes,
                voting_power := 100, timestamp := 5 }]
    updated_at := 5 }

lemma pVotedEx_reachable : PReachable pVotedEx := by
  refine ⟨pbEx, (r"prop-1"), 0, p0Ex, by decide, ?_⟩
  exact Relation.ReflTransGen.tail
    (Relation.ReflTransGen.single
      (PStep.start_voting 1 0 p0Ex p1Ex (by decide)))
    (PStep.vote balEx 5 (r"0xA") ProposalVote.Yes p1Ex pVotedEx (by decide))

/-- A fully populated transaction builder. -/
def tbEx : TransactionBuilder :=
  { description := some (r"d"), toAddr := some (r"0xR"),
    token := some (r"GOV"), amount := some 5,
    required_approvals := some 1, metadata := Json.null }

/-- The Pending transaction `tbEx` builds. -/
def tx0Ex : Transaction :=
  { id := (r"tx-1"), description := (r"d"), toAddr := (r"0xR"),
    token := (r"GOV"), amount := 5, status := TransactionStatus.Pending,
    required_approvals := 1, current_approvals := 0, created_at := 0,
    updated_at := 0, executed_at := none, approvers := [],
    transaction_hash := none, metadata := Json.null }

/-- `tx0Ex` after the single required approval and a successful execution. -/
def txExecEx : Transaction :=
  { tx0Ex with
    status := TransactionStatus.Executed
    current_approvals := 1
    approvers := [(r"0xSigner0")]
    executed_at := some 3
    updated_at := 3 }

lemma txExecEx_reachable : TxReachable 1 txExecEx := by
  refine ⟨tbEx, (r"tx-1"), 0, tx0Ex, rfl, Relation.ReflTransGen.single ?_⟩
  have he : txExecEx = (TreasuryManager.approve_transaction (get_signers 1)
      (Except.ok ()) 3 tx0Ex (r"0xSigner0")).stored := by decide
  rw [he]
  exact TxStep.approve (Except.ok ()) 3 (r"0xSigner0") tx0Ex

/-! ## Claim theorems -/

/-- C1 (counterexample): with quorum percentage 20 and majority percentage 50,
a proposal with only 100 total weighted votes cast, all yes, finalizes
Approved, not Rejected: the quorum threshold is 20 per cent of the 100 votes
cast (= 20), not of any total supply, so the quorum check passes. -/
theorem low_turnout_all_yes_finalizes_approved :
    (ProposalManager.finalize_vote 20 50 9 pVoted100Ex).state = ProposalState.Approved
    ∧ (ProposalManager.finalize_vote 20 50 9 pVoted100Ex).state ≠ ProposalState.Rejected := by
  decide

/-- C1 (amended): whenever `finalize_vote` sees total weighted votes below the
quorum threshold it rejects the proposal regardless of the yes/no split and of
the majority percentage; the quorum threshold, however, is
`quorum_percentage` per cent of the votes cast themselves, so this branch is
reachable only with a quorum percentage above 100. -/
theorem finalize_below_quorum_rejected (q m now : Nat) (p : Proposal)
    (h : (p.yes_votes + p.no_votes + p.abstain_votes) % W64
        < q * ((p.yes_votes + p.no_votes + p.abstain_votes) % W64) % W64 / 100) :
    (ProposalManager.finalize_vote q m now p).state = ProposalState.Rejected := by
  unfold ProposalManager.finalize_vote
  dsimp only []
  rw [if_pos h]

/-- C1 (witness): with quorum percentage 150, ten weighted votes fall below
the threshold of 15 and the proposal is rejected. -/
theorem finalize_below_quorum_rejected_witness :
    (ProposalManager.finalize_vote 150 50 9 pVotedEx).state = ProposalState.Rejected :=
  finalize_below_quorum_rejected 150 50 9 pVotedEx (by decide)

/-- C2 (counterexample): under the Conviction strategy a voter with oracle
balance 100 gets `get_voting_weight` = 500, yet a successful
`ProposalManager::vote` records voting power 100 — the raw balance — because
`vote` queries the oracle directly and never applies the strategy. -/
theorem vote_bypasses_conviction_strategy :
    selectStrategy (r"Conviction") = StrategyKind.conviction
    ∧ ProposalManager.vote balEx100 5 p1Ex (r"0xB") ProposalVote.Yes
        = Except.ok pVoted100Ex
    ∧ pVoted100Ex.votes.map (fun v => v.voting_power) = [100]
    ∧ GovernanceEngine.get_voting_weight (fun b => b)
        (selectStrategy (r"Conviction")) balEx100 (r"0xB")
        = Except.ok
            { value := 500,
              metadata :=
                [((r"conviction"), (r"5")),
                 ((r"formula"), (r"balance * conviction")),
                 ((r"original_balance"), (r"100"))] }
    ∧ (100 : Nat) ≠ 500 := by
  refine ⟨by decide, by decide, by decide, by decide, by decide⟩

/-- C2 (amended): every successful `ProposalManager::vote` records as weight
the voter's raw oracle balance; that value coincides with what
`GovernanceEngine::get_voting_weight` returns exactly when the active
strategy is the token-weighted one. -/
theorem vote_weight_is_raw_oracle_balance (sqrtFn : Nat → Nat)
    (bal : String → Except String Nat) (now : Nat) (p : Proposal)
    (voter : String) (choice : ProposalVote) (p' : Proposal)
    (h : ProposalManager.vote bal now p voter choice = Except.ok p') :
    ∃ b, bal voter = Except.ok b
      ∧ p'.votes = p.votes ++
          [{ voter := voter, vote := choice,
             voting_power := b % W64, timestamp := now }]
      ∧ GovernanceEngine.get_voting_weight sqrtFn StrategyKind.tokenWeighted
          bal voter = Except.ok { value := b % W64, metadata := [] } := by
  obtain ⟨-, -, b, hbal, -, rfl⟩ := vote_ok_shape bal now p voter choice p' h
  refine ⟨b, hbal, rfl, ?_⟩
  unfold GovernanceEngine.get_voting_weight
  rw [hbal]
  rfl

/-- C2 (witness): voter `0xA` with balance 7 votes successfully on `p1Ex`;
the recorded weight is 7, equal to the token-weighted voting weight. -/
theorem vote_weight_is_raw_oracle_balance_witness :
    ∃ b, balEx (r"0xA") = Except.ok b
      ∧ pVotedEx.votes = p1Ex.votes ++
          [{ voter := (r"0xA"), vote := ProposalVote.Yes,
             voting_power := b % W64, timestamp := 5 }]
      ∧ GovernanceEngine.get_voting_weight (fun b => b)
          StrategyKind.tokenWeighted balEx (r"0xA")
          = Except.ok { value := b % W64, metadata := [] } :=
  vote_weight_is_raw_oracle_balance (fun b => b) balEx 5 p1Ex (r"0xA")
    ProposalVote.Yes pVotedEx (by decide)

/-- C3: a reachable treasury transaction in the Executed state has met its
approval threshold with pairwise-distinct authorized signers, and a further
`execute_transaction` call returns an error, performs no ledger transfer and
leaves the stored transaction unchanged. -/
theorem executed_requires_threshold_and_execute_is_noop (n : Nat)
    (tx : Transaction) (hreach : TxReachable n tx)
    (hex : tx.status = TransactionStatus.Executed) :
    tx.required_approvals ≤ tx.current_approvals
    ∧ tx.approvers.Nodup
    ∧ (∀ a ∈ tx.approvers, a ∈ get_signers n)
    ∧ ∀ tr now, TreasuryManager.execute_transaction tr now tx =
        { result := Except.error (DaoError.invalidParameter
            (r"Transaction is not in an approved state"))
          stored := tx
          calls := [] } := by
  obtain ⟨hnd, hsub, hth⟩ := txreachable_txinv n tx hreach
  refine ⟨hth (Or.inr (Or.inl hex)), hnd, hsub, ?_⟩
  intro tr now
  have hne : tx.status ≠ TransactionStatus.Approved := by rw [hex]; decide
  unfold TreasuryManager.execute_transaction
  rw [if_pos hne]

/-- C3 (witness): the reachable executed transaction `txExecEx` (one required
approval, approved by signer 0 and executed) has threshold met, distinct
authorized approvers, and re-executing it at time 9 is rejected without a
ledger call and without changing the stored transaction. -/
theorem executed_requires_threshold_and_execute_is_noop_witness :
    txExecEx.required_approvals ≤ txExecEx.current_approvals
    ∧ txExecEx.approvers.Nodup
    ∧ (∀ a ∈ txExecEx.approvers, a ∈ get_signers 1)
    ∧ TreasuryManager.execute_transaction (Except.ok ()) 9 txExecEx =
        { result := Except.error (DaoError.invalidParameter
            (r"Transaction is not in an approved state"))
          stored := txExecEx
          calls := [] } :=
  have h := executed_requires_threshold_and_execute_is_noop 1 txExecEx
    txExecEx_reachable rfl
  ⟨h.1, h.2.1, h.2.2.1, h.2.2.2 (Except.ok ()) 9⟩

/-- C4: approving a reachable Pending transaction with a signer already in its
approvers list fails with the InvalidParameter already-approved error,
attempts no ledger call, and stores nothing new: the transaction is returned
exactly as it was. -/
theorem duplicate_approval_fails_and_changes_nothing (n : Nat)
    (tx : Transaction) (approver : String) (tr : Except DaoError Unit)
    (now : Nat) (hreach : TxReachable n tx)
    (hp : tx.status = TransactionStatus.Pending)
    (hmem : approver ∈ tx.approvers) :
    TreasuryManager.approve_transaction (get_signers n) tr now tx approver =
      { result := Except.error (DaoError.invalidParameter
          (r"Approver has already approved this transaction"))
        stored := tx
        calls := [] } := by
  obtain ⟨-, hsub, -⟩ := txreachable_txinv n tx hreach
  unfold TreasuryManager.approve_transaction
  rw [if_neg (fun h => h hp), if_neg (not_not_intro (hsub approver hmem)),
    if_pos hmem]

/-- A transaction builder requiring two approvals. -/
def tb2Ex : TransactionBuilder :=
  { description := some (r"d"), toAddr := some (r"0xR"),
    token := some (r"GOV"), amount := some 5,
    required_approvals := some 2, metadata := Json.null }

/-- The Pending transaction `tb2Ex` builds. -/
def tx02Ex : Transaction :=
  { tx0Ex with id := (r"tx-2"), required_approvals := 2 }

/-- `tx02Ex` after the first of its two required approvals: still Pending. -/
def txPendEx : Transaction :=
  { tx02Ex with
    current_approvals := 1
    approvers := [(r"0xSigner0")]
    updated_at := 3 }

lemma txPendEx_reachable : TxReachable 2 txPendEx := by
  refine ⟨tb2Ex, (r"tx-2"), 0, tx02Ex, by decide, Relation.ReflTransGen.single ?_⟩
  have he : txPendEx = (TreasuryManager.approve_transaction (get_signers 2)
      (Except.ok ()) 3 tx02Ex (r"0xSigner0")).stored := by decide
  rw [he]
  exact TxStep.approve (Except.ok ()) 3 (r"0xSigner0") tx02Ex

/-- C4 (witness): signer 0, who already approved the still-Pending
`txPendEx`, approving again at time 4 fails with the already-approved error
and leaves the stored transaction exactly as it was. -/
theorem duplicate_approval_fails_and_changes_nothing_witness :
    TreasuryManager.approve_transaction (get_signers 2) (Except.ok ()) 4
      txPendEx (r"0xSigner0") =
      { result := Except.error (DaoError.invalidParameter
          (r"Approver has already approved this transaction"))
        stored := txPendEx
        calls := [] } :=
  duplicate_approval_fails_and_changes_nothing 2 txPendEx (r"0xSigner0")
    (Except.ok ()) 4 txPendEx_reachable rfl (by decide)

/-- C5: in every reachable proposal no two recorded votes share a voter, and
any `vote` call by a voter who already has a vote on the proposal fails (and
hence stores nothing). -/
theorem reachable_votes_have_distinct_voters (p : Proposal)
    (hreach : PReachable p) :
    p.votes.Pairwise (fun a b => a.voter ≠ b.voter)
    ∧ ∀ bal now voter choice, (∃ v ∈ p.votes, v.voter = voter) →
        ∃ e, ProposalManager.vote bal now p voter choice = Except.error e := by
  obtain ⟨hpw, -, -⟩ := preachable_pinv p hreach
  refine ⟨hpw, ?_⟩
  intro bal now voter choice hex
  obtain ⟨v, hv, hveq⟩ := hex
  cases hres : ProposalManager.vote bal now p voter choice with
  | error e => exact ⟨e, rfl⟩
  | ok p' =>
      obtain ⟨-, hfresh, -⟩ := vote_ok_shape bal now p voter choice p' hres
      exact absurd hveq (hfresh v hv)

/-- C5 (witness): the reachable proposal `pVotedEx` has pairwise-distinct
voters, and voter `0xA`, who already voted, fails when voting again. -/
theorem reachable_votes_have_distinct_voters_witness :
    pVotedEx.votes.Pairwise (fun a b => a.voter ≠ b.voter)
    ∧ ∃ e, ProposalManager.vote balEx 6 pVotedEx (r"0xA") ProposalVote.No
        = Except.error e :=
  have h := reachable_votes_have_distinct_voters pVotedEx pVotedEx_reachable
  ⟨h.1, h.2 balEx 6 (r"0xA") ProposalVote.No
    ⟨{ voter := (r"0xA"), vote := ProposalVote.Yes,
       voting_power := 7, timestamp := 5 }, by decide, rfl⟩⟩

/-- C6: in every reachable proposal the three `u64` tallies sum (as `u64`
values) to the `u64` sum of the recorded vote weights; whenever that sum has
not overflowed 2^64 the equality is exact. -/
theorem reachable_tallies_equal_vote_weight_sum (p : Proposal)
    (hreach : PReachable p) :
    (p.yes_votes + p.no_votes + p.abstain_votes) % W64 = votesSum p % W64
    ∧ (votesSum p < W64 →
        p.yes_votes + p.no_votes + p.abstain_votes = votesSum p) := by
  obtain ⟨-, h1, h2⟩ := preachable_pinv p hreach
  exact ⟨h1, h2⟩

/-- C6 (witness): for the reachable proposal `pVotedEx` the tallies sum to
the recorded weight sum 7, exactly. -/
theorem reachable_tallies_equal_vote_weight_sum_witness :
    (pVotedEx.yes_votes + pVotedEx.no_votes + pVotedEx.abstain_votes) % W64
      = votesSum pVotedEx % W64
    ∧ pVotedEx.yes_votes + pVotedEx.no_votes + pVotedEx.abstain_votes
      = votesSum pVotedEx :=
  have h := reachable_tallies_equal_vote_weight_sum pVotedEx pVotedEx_reachable
  ⟨h.1, h.2 (by decide)⟩

/-- C7: executing an Approved transaction attempts exactly one ledger
transfer; on ledger success the stored transaction is Executed with the
execution timestamp, on ledger failure it is Failed with the error message
captured in its metadata and the error is propagated; in neither case is the
stored status Pending. -/
theorem execute_approved_success_or_failed (tr : Except DaoError Unit)
    (now : Nat) (tx : Transaction)
    (happ : tx.status = TransactionStatus.Approved) :
    (tr = Except.ok () →
      TreasuryManager.execute_transaction tr now tx =
        { result := Except.ok ()
          stored := { tx with
            status := TransactionStatus.Executed
            executed_at := some now
            updated_at := now }
          calls := [{ token := tx.token, fromAddr := get_treasury_address,
                      toAddr := tx.toAddr, amount := tx.amount }] })
    ∧ (∀ e, tr = Except.error e →
      TreasuryManager.execute_transaction tr now tx =
        { result := Except.error e
          stored := { tx with
            status := TransactionStatus.Failed
            updated_at := now
            metadata := Json.errObj (DaoError.toMessage e) }
          calls := [{ token := tx.token, fromAddr := get_treasury_address,
                      toAddr := tx.toAddr, amount := tx.amount }] })
    ∧ (TreasuryManager.execute_transaction tr now tx).stored.status
        ≠ TransactionStatus.Pending := by
  unfold TreasuryManager.execute_transaction
  rw [if_neg (fun h => h happ)]
  cases tr with
  | ok u =>
      refine ⟨fun _ => rfl, ?_, ?_⟩
      · intro e he
        cases he
      · intro hcon
        dsimp only [] at hcon
        cases hcon
  | error e =>
      refine ⟨?_, ?_, ?_⟩
      · intro h
        cases h
      · intro e' he
        cases he
        rfl
      · intro hcon
        dsimp only [] at hcon
        cases hcon

/-- The Approved transaction used by the C7 witness. -/
def txApprEx : Transaction :=
  { tx0Ex with
    status := TransactionStatus.Approved
    current_approvals := 1
    approvers := [(r"0xSigner0")]
    updated_at := 3 }

/-- C7 (witness): executing the Approved `txApprEx` when the ledger fails
stores it as Failed with the error message in its metadata, propagates the
error, and does not leave it Pending. -/
theorem execute_approved_success_or_failed_witness :
    TreasuryManager.execute_transaction
      (Except.error (DaoError.databaseError (r"boom"))) 4 txApprEx =
      { result := Except.error (DaoError.databaseError (r"boom"))
        stored := { txApprEx with
          status := TransactionStatus.Failed
          updated_at := 4
          metadata := Json.errObj
            (DaoError.toMessage (DaoError.databaseError (r"boom"))) }
        calls := [{ token := txApprEx.token, fromAddr := get_treasury_address,
                    toAddr := txApprEx.toAddr, amount := txApprEx.amount }] }
    ∧ (TreasuryManager.execute_transaction
        (Except.error (DaoError.databaseError (r"boom"))) 4 txApprEx).stored.status
        ≠ TransactionStatus.Pending :=
  have h := execute_approved_success_or_failed
    (Except.error (DaoError.databaseError (r"boom"))) 4 txApprEx rfl
  ⟨h.2.1 (DaoError.databaseError (r"boom")) rfl, h.2.2⟩

/-- C8: for every address and balance each of the three voting strategies
returns `Ok` with a weight fully determined by its inputs — a pure, total
function of the balance (the quadratic strategy's numeric square root, being
floating-point in the source, enters as the abstract parameter `sqrtFn`). -/
theorem strategies_total_and_deterministic (sqrtFn : Nat → Nat)
    (maxc pb : Nat) (address : String) (balance : Nat) :
    TokenWeightedVoting.calculate_weight address balance
      = Except.ok { value := balance, metadata := [] }
    ∧ QuadraticVoting.calculate_weight sqrtFn address balance
      = Except.ok
          { value := sqrtFn balance,
            metadata :=
              [((r"formula"), (r"sqrt(balance)")),
               ((r"original_balance"), toString balance)] }
    ∧ ConvictionVoting.calculate_weight maxc pb address balance
      = Except.ok
          { value := (balance * min 5 maxc) % W64,
            metadata :=
              [((r"conviction"), toString (min 5 maxc)),
               ((r"formula"), (r"balance * conviction")),
               ((r"original_balance"), toString balance)] } :=
  ⟨rfl, rfl, rfl⟩

/-- C10: when an approval reaches the required threshold and the subsequent
execution attempt fails at the ledger, `approve_transaction` returns the
ledger error even though the new approver was durably recorded and the stored
transaction has moved through Approved to Failed — an error return does not
mean the transaction is unchanged. -/
theorem approval_persists_when_execution_fails (signers : List String)
    (e : DaoError) (now : Nat) (tx : Transaction) (approver : String)
    (hp : tx.status = TransactionStatus.Pending) (hs : approver ∈ signers)
    (hna : approver ∉ tx.approvers)
    (hth : tx.required_approvals ≤ (tx.current_approvals + 1) % W32) :
    TreasuryManager.approve_transaction signers (Except.error e) now tx approver =
      { result := Except.error e
        stored := { tx with
          approvers := tx.approvers ++ [approver]
          current_approvals := (tx.current_approvals + 1) % W32
          status := TransactionStatus.Failed
          updated_at := now
          metadata := Json.errObj (DaoError.toMessage e) }
        calls := [{ token := tx.token, fromAddr := get_treasury_address,
                    toAddr := tx.toAddr, amount := tx.amount }] } := by
  unfold TreasuryManager.approve_transaction
  rw [if_neg (fun h => h hp), if_neg (not_not_intro hs), if_neg hna]
  dsimp only []
  rw [if_pos hth, if_pos rfl]
  unfold TreasuryManager.execute_transaction
  rw [if_neg (fun h => h rfl)]

/-- C10 (witness): signer 0 gives `tx0Ex` its single required approval while
the ledger fails; the call returns the ledger error, yet the stored
transaction has the approver recorded and status Failed. -/
theorem approval_persists_when_execution_fails_witness :
    TreasuryManager.approve_transaction (get_signers 1)
      (Except.error (DaoError.databaseError (r"boom"))) 3 tx0Ex (r"0xSigner0") =
      { result := Except.error (DaoError.databaseError (r"boom"))
        stored := { tx0Ex with
          approvers := tx0Ex.approvers ++ [(r"0xSigner0")]
          current_approvals := (tx0Ex.current_approvals + 1) % W32
          status := TransactionStatus.Failed
          updated_at := 3
          metadata := Json.errObj
            (DaoError.toMessage (DaoError.databaseError (r"boom"))) }
        calls := [{ token := tx0Ex.token, fromAddr := get_treasury_address,
                    toAddr := tx0Ex.toAddr, amount := tx0Ex.amount }] } :=
  approval_persists_when_execution_fails (get_signers 1)
    (DaoError.databaseError (r"boom")) 3 tx0Ex (r"0xSigner0")
    rfl (by decide) (by decide) (by decide)

end AtomSiDAO
